import Mathlib

/-!
Verification of the soroban-user-profile registry contract.

The Rust sources under `src/` are shallowly embedded here:

* `src/validation.rs` — byte-level username validation (`validate_username`);
* `src/profile.rs`    — the `Profile` record;
* `src/fields.rs`     — the tagged `FieldValue` union;
* `src/storage.rs`    — the persistent storage keys and TTL constants;
* `src/lib.rs`        — the contract operations.

Bytes are modelled as `Nat` (values < 256 in practice; the validator only
compares against ASCII code points, so no modular arithmetic is needed).
Soroban `Address` is an abstract principal, modelled as `Nat`; `String`
(display names) and `Symbol` (field names) are opaque text, modelled as
Lean `String`.  The host's persistent storage becomes an explicit `State`
record of partial maps; `require_auth` becomes a boolean capability map in
a call context `Ctx`; a panic/abort becomes an `Except.error`, which by the
host's atomicity discards every partial write (the interpreter `applyOp`
keeps the pre-state on error).  `extend_ttl` calls are recorded in the
operation's result as a list of `TtlExt` records, one per host call.
-/

namespace UserProfile

/-! ### Validator (src/validation.rs) -/

def MIN_USERNAME_LENGTH : Nat := 6

def MAX_USERNAME_LENGTH : Nat := 17

def MIN_LEADING_LETTERS : Nat := 3

def TRAILING_DIGITS : Nat := 3

/-- `is_lowercase_letter` from src/validation.rs: `b >= b'a' && b <= b'z'`. -/
def is_lowercase_letter (b : Nat) : Bool := decide (97 ≤ b ∧ b ≤ 122)

/-- `is_digit` from src/validation.rs: `b >= b'0' && b <= b'9'`. -/
def is_digit (b : Nat) : Bool := decide (48 ≤ b ∧ b ≤ 57)

/-- `is_valid_middle_char` from src/validation.rs: lowercase letter, digit or
underscore (`b'_'` = 95). -/
def is_valid_middle_char (b : Nat) : Bool :=
  is_lowercase_letter b || is_digit b || decide (b = 95)

/-- `validate_username` from src/validation.rs.  The three Rust `for` loops
over `0..3`, `(len-3)..len` and `3..(len-3)` become `List.range'` traversals
over the same index ranges (`List.range' s n` is `s, s+1, …, s+n-1`, matching
Rust's `s..(s+n)`).  In-range `username.get(i).unwrap()` becomes `u.getD i 0`. -/
def validate_username (u : List Nat) : Bool :=
  let len := u.length
  if len < MIN_USERNAME_LENGTH || len > MAX_USERNAME_LENGTH then
    false
  else
    (List.range' 0 MIN_LEADING_LETTERS).all
        (fun i => is_lowercase_letter (u.getD i 0)) &&
    (List.range' (len - TRAILING_DIGITS) (len - (len - TRAILING_DIGITS))).all
        (fun i => is_digit (u.getD i 0)) &&
    (List.range' MIN_LEADING_LETTERS ((len - TRAILING_DIGITS) - MIN_LEADING_LETTERS)).all
        (fun i => is_valid_middle_char (u.getD i 0))

/-! ### Spec-side username pattern

The specification describes the username policy as the regular expression
`^[a-z]{3}[a-z0-9_]{0,11}[0-9]{3}$` with total length 6–17.  The following
predicate is written from those words (an existential split into a 3-byte
lowercase head, a 0–11 byte middle of lowercase/digit/underscore, and a
3-byte digit tail); it is compared against `validate_username`, which is
translated from the source. -/

def lowerByte (b : Nat) : Prop := 97 ≤ b ∧ b ≤ 122

def digitByte (b : Nat) : Prop := 48 ≤ b ∧ b ≤ 57

def middleByte (b : Nat) : Prop := lowerByte b ∨ digitByte b ∨ b = 95

def usernamePattern (u : List Nat) : Prop :=
  ∃ pre mid suf : List Nat,
    u = pre ++ mid ++ suf ∧
    pre.length = 3 ∧ mid.length ≤ 11 ∧ suf.length = 3 ∧
    (∀ b ∈ pre, lowerByte b) ∧ (∀ b ∈ mid, middleByte b) ∧ (∀ b ∈ suf, digitByte b)

instance decLowerByte (b : Nat) : Decidable (lowerByte b) :=
  inferInstanceAs (Decidable (97 ≤ b ∧ b ≤ 122))

instance decDigitByte (b : Nat) : Decidable (digitByte b) :=
  inferInstanceAs (Decidable (48 ≤ b ∧ b ≤ 57))

instance decMiddleByte (b : Nat) : Decidable (middleByte b) :=
  inferInstanceAs (Decidable (lowerByte b ∨ digitByte b ∨ b = 95))

/-! ### Data model (src/profile.rs, src/fields.rs, src/storage.rs) -/

abbrev Address := Nat

abbrev Uname := List Nat

abbrev DisplayName := String

abbrev FieldName := String

/-- `FieldValue` from src/fields.rs. -/
inductive FieldValue where
  | StringField (s : String)
  | IntField (i : Int)
  | BoolField (b : Bool)
  | AddressField (a : Address)
  | BytesField (bs : List Nat)
deriving DecidableEq

/-- `Profile` from src/profile.rs. -/
structure Profile where
  username : Uname
  display_name : DisplayName
  owner : Address
  created_at : Nat
  updated_at : Nat
  deleted : Bool
deriving DecidableEq

/-- `Profile::new` from src/profile.rs. -/
def Profile.new (username : Uname) (display_name : DisplayName) (owner : Address)
    (created_at : Nat) : Profile :=
  { username := username, display_name := display_name, owner := owner,
    created_at := created_at, updated_at := created_at, deleted := false }

/-- `Profile::is_active` from src/profile.rs. -/
def Profile.is_active (p : Profile) : Bool := !p.deleted

/-- `ProfileKey` from src/storage.rs (the `Profile(Address)` variant is named
`ProfileOf` here to avoid clashing with the `Profile` record). -/
inductive ProfileKey where
  | Admin
  | ProfileCount
  | Username (u : Uname)
  | ProfileOf (a : Address)
  | Field (a : Address) (f : FieldName)
  | ReservedUsername (u : Uname)
  | RegistrationFee
deriving DecidableEq

def PROFILE_TTL_THRESHOLD : Nat := 518400

def PROFILE_TTL_EXTEND : Nat := 2592000

/-- One host `extend_ttl(key, threshold, extend)` call. -/
structure TtlExt where
  key : ProfileKey
  threshold : Nat
  horizon : Nat
deriving DecidableEq

/-- `ProfileError` from src/lib.rs. -/
inductive ProfileError where
  | AlreadyInitialized
  | NotInitialized
  | NotAuthorized
  | InvalidUsername
  | UsernameTaken
  | UsernameReserved
  | ProfileNotFound
  | ProfileExists
  | ProfileDeleted
  | InvalidField
deriving DecidableEq

/-- Why an operation aborted: a contract `panic_with_error`, or a failed
host `require_auth` check. -/
inductive Abort where
  | contractErr (e : ProfileError)
  | authFailure (a : Address)
deriving DecidableEq

/-- The contract's persistent + instance storage, one component per
`ProfileKey` variant. -/
structure State where
  admin : Option Address
  profileCount : Option Nat
  usernames : Uname → Option Address
  profiles : Address → Option Profile
  fields : Address → FieldName → Option FieldValue
  reserved : Uname → Bool
  registrationFee : Option Int

/-- Call context: which principals authorized this invocation
(`require_auth`), and the current ledger sequence number. -/
structure Ctx where
  auth : Address → Bool
  now : Nat

/-- `u64` modulus for the profile counter. -/
def U64MOD : Nat := 2 ^ 64

def upd {κ α : Type} [DecidableEq κ] (m : κ → α) (k : κ) (v : α) : κ → α :=
  fun k' => if k' = k then v else m k'

def updF (m : Address → FieldName → Option FieldValue) (a : Address) (f : FieldName)
    (v : Option FieldValue) : Address → FieldName → Option FieldValue :=
  fun a' f' => if a' = a ∧ f' = f then v else m a' f'

/-! ### Contract operations (src/lib.rs)

Each mutating operation returns `Except Abort (State × List TtlExt)` (or
`Bool × State × List TtlExt` for `register`, which returns a success flag):
an `error` is a panic, which the host turns into a full rollback. -/

/-- `init` from src/lib.rs: has-admin check first, then `require_auth`. -/
def init (c : Ctx) (admin : Address) (s : State) : Except Abort (State × List TtlExt) :=
  if (s.admin).isSome then .error (.contractErr .AlreadyInitialized)
  else if !(c.auth admin) then .error (.authFailure admin)
  else .ok ({ s with admin := some admin, profileCount := some 0 }, [])

/-- `register` from src/lib.rs: auth; initialized; format; taken; reserved;
caller-has-profile; then create the profile, write both entries, extend both
TTLs and increment the `u64` counter. -/
def register (c : Ctx) (username : Uname) (display_name : DisplayName) (caller : Address)
    (s : State) : Except Abort (Bool × State × List TtlExt) :=
  if !(c.auth caller) then .error (.authFailure caller)
  else if (s.admin).isNone then .error (.contractErr .NotInitialized)
  else if !(validate_username username) then .error (.contractErr .InvalidUsername)
  else if (s.usernames username).isSome then .error (.contractErr .UsernameTaken)
  else if s.reserved username then .error (.contractErr .UsernameReserved)
  else if (s.profiles caller).isSome then .error (.contractErr .ProfileExists)
  else
    let profile := Profile.new username display_name caller c.now
    .ok (true,
      { s with
        usernames := upd s.usernames username (some caller),
        profiles := upd s.profiles caller (some profile),
        profileCount := some ((s.profileCount.getD 0 + 1) % U64MOD) },
      [⟨.Username username, PROFILE_TTL_THRESHOLD, PROFILE_TTL_EXTEND⟩,
       ⟨.ProfileOf caller, PROFILE_TTL_THRESHOLD, PROFILE_TTL_EXTEND⟩])

/-- `is_username_available` from src/lib.rs. -/
def is_username_available (s : State) (username : Uname) : Bool :=
  if !(validate_username username) then false
  else if (s.usernames username).isSome then false
  else if s.reserved username then false
  else true

/-- `get_by_username` from src/lib.rs: resolve the username mapping, then
filter the profile to active only. -/
def get_by_username (s : State) (username : Uname) : Option Profile :=
  match s.usernames username with
  | some addr =>
    match s.profiles addr with
    | some p => if p.is_active then some p else none
    | none => none
  | none => none

/-- `get_by_address` from src/lib.rs. -/
def get_by_address (s : State) (address : Address) : Option Profile :=
  match s.profiles address with
  | some p => if p.is_active then some p else none
  | none => none

/-- `get_field` from src/lib.rs: a raw storage read, no profile check. -/
def get_field (s : State) (address : Address) (field : FieldName) : Option FieldValue :=
  s.fields address field

/-- `get_fields` from src/lib.rs, as an association list in request order. -/
def get_fields (s : State) (address : Address) (field_names : List FieldName) :
    List (FieldName × FieldValue) :=
  field_names.foldl
    (fun result f =>
      match s.fields address f with
      | some v => result ++ [(f, v)]
      | none => result)
    []

/-- `profile_count` from src/lib.rs. -/
def profile_count (s : State) : Nat := s.profileCount.getD 0

/-- `registration_fee` from src/lib.rs. -/
def registration_fee (s : State) : Int := s.registrationFee.getD 0

/-- `set_display_name` from src/lib.rs. -/
def set_display_name (c : Ctx) (display_name : DisplayName) (caller : Address) (s : State) :
    Except Abort (State × List TtlExt) :=
  if !(c.auth caller) then .error (.authFailure caller)
  else
    match s.profiles caller with
    | none => .error (.contractErr .ProfileNotFound)
    | some profile =>
      if profile.deleted then .error (.contractErr .ProfileDeleted)
      else if profile.owner ≠ caller then .error (.contractErr .NotAuthorized)
      else
        let profile := { profile with display_name := display_name, updated_at := c.now }
        .ok ({ s with profiles := upd s.profiles caller (some profile) },
          [⟨.ProfileOf caller, PROFILE_TTL_THRESHOLD, PROFILE_TTL_EXTEND⟩])

/-- `set_field_internal` from src/lib.rs. -/
def set_field_internal (c : Ctx) (caller : Address) (field : FieldName) (value : FieldValue)
    (s : State) : Except Abort (State × List TtlExt) :=
  if !(c.auth caller) then .error (.authFailure caller)
  else
    match s.profiles caller with
    | none => .error (.contractErr .ProfileNotFound)
    | some profile =>
      if profile.deleted then .error (.contractErr .ProfileDeleted)
      else if profile.owner ≠ caller then .error (.contractErr .NotAuthorized)
      else
        .ok ({ s with fields := updF s.fields caller field (some value) },
          [⟨.Field caller field, PROFILE_TTL_THRESHOLD, PROFILE_TTL_EXTEND⟩])

/-- `set_string_field` from src/lib.rs. -/
def set_string_field (c : Ctx) (field : FieldName) (value : String) (caller : Address)
    (s : State) : Except Abort (State × List TtlExt) :=
  set_field_internal c caller field (.StringField value) s

/-- `set_int_field` from src/lib.rs. -/
def set_int_field (c : Ctx) (field : FieldName) (value : Int) (caller : Address)
    (s : State) : Except Abort (State × List TtlExt) :=
  set_field_internal c caller field (.IntField value) s

/-- `set_bool_field` from src/lib.rs. -/
def set_bool_field (c : Ctx) (field : FieldName) (value : Bool) (caller : Address)
    (s : State) : Except Abort (State × List TtlExt) :=
  set_field_internal c caller field (.BoolField value) s

/-- `remove_field` from src/lib.rs. -/
def remove_field (c : Ctx) (field : FieldName) (caller : Address) (s : State) :
    Except Abort (State × List TtlExt) :=
  if !(c.auth caller) then .error (.authFailure caller)
  else
    match s.profiles caller with
    | none => .error (.contractErr .ProfileNotFound)
    | some profile =>
      if profile.deleted then .error (.contractErr .ProfileDeleted)
      else if profile.owner ≠ caller then .error (.contractErr .NotAuthorized)
      else .ok ({ s with fields := updF s.fields caller field none }, [])

/-- `delete_profile` from src/lib.rs: soft delete, no `extend_ttl` call. -/
def delete_profile (c : Ctx) (caller : Address) (s : State) :
    Except Abort (State × List TtlExt) :=
  if !(c.auth caller) then .error (.authFailure caller)
  else
    match s.profiles caller with
    | none => .error (.contractErr .ProfileNotFound)
    | some profile =>
      if profile.deleted then .error (.contractErr .ProfileDeleted)
      else if profile.owner ≠ caller then .error (.contractErr .NotAuthorized)
      else
        let profile := { profile with deleted := true, updated_at := c.now }
        .ok ({ s with profiles := upd s.profiles caller (some profile) }, [])

/-- `transfer` from src/lib.rs: dual auth; existing active owned profile;
new owner has no profile; re-point the username index, move the profile
record, extend both TTLs. -/
def transfer (c : Ctx) (new_owner : Address) (caller : Address) (s : State) :
    Except Abort (State × List TtlExt) :=
  if !(c.auth caller) then .error (.authFailure caller)
  else if !(c.auth new_owner) then .error (.authFailure new_owner)
  else
    match s.profiles caller with
    | none => .error (.contractErr .ProfileNotFound)
    | some profile =>
      if profile.deleted then .error (.contractErr .ProfileDeleted)
      else if profile.owner ≠ caller then .error (.contractErr .NotAuthorized)
      else if (s.profiles new_owner).isSome then .error (.contractErr .ProfileExists)
      else
        let username := profile.username
        let profile := { profile with owner := new_owner, updated_at := c.now }
        .ok ({ s with
            usernames := upd s.usernames username (some new_owner),
            profiles := upd (upd s.profiles caller none) new_owner (some profile) },
          [⟨.Username username, PROFILE_TTL_THRESHOLD, PROFILE_TTL_EXTEND⟩,
           ⟨.ProfileOf new_owner, PROFILE_TTL_THRESHOLD, PROFILE_TTL_EXTEND⟩])

/-- `require_admin` from src/lib.rs: initialized; identity comparison
(`caller != admin` aborts `NotAuthorized`); only then `require_auth`.
`none` means the gate passed. -/
def require_admin (c : Ctx) (caller : Address) (s : State) : Option Abort :=
  match s.admin with
  | none => some (.contractErr .NotInitialized)
  | some admin =>
    if caller ≠ admin then some (.contractErr .NotAuthorized)
    else if !(c.auth caller) then some (.authFailure caller)
    else none

/-- `reserve_username` from src/lib.rs. -/
def reserve_username (c : Ctx) (username : Uname) (caller : Address) (s : State) :
    Except Abort (State × List TtlExt) :=
  match require_admin c caller s with
  | some e => .error e
  | none =>
    if !(validate_username username) then .error (.contractErr .InvalidUsername)
    else .ok ({ s with reserved := upd s.reserved username true }, [])

/-- `unreserve_username` from src/lib.rs. -/
def unreserve_username (c : Ctx) (username : Uname) (caller : Address) (s : State) :
    Except Abort (State × List TtlExt) :=
  match require_admin c caller s with
  | some e => .error e
  | none => .ok ({ s with reserved := upd s.reserved username false }, [])

/-- `set_registration_fee` from src/lib.rs. -/
def set_registration_fee (c : Ctx) (fee_stroops : Int) (caller : Address) (s : State) :
    Except Abort (State × List TtlExt) :=
  match require_admin c caller s with
  | some e => .error e
  | none => .ok ({ s with registrationFee := some fee_stroops }, [])

/-- `ban_profile` from src/lib.rs: admin gate, then soft delete with no
deleted-state check and no `extend_ttl` call. -/
def ban_profile (c : Ctx) (address : Address) (caller : Address) (s : State) :
    Except Abort (State × List TtlExt) :=
  match require_admin c caller s with
  | some e => .error e
  | none =>
    match s.profiles address with
    | none => .error (.contractErr .ProfileNotFound)
    | some profile =>
      let profile := { profile with deleted := true, updated_at := c.now }
      .ok ({ s with profiles := upd s.profiles address (some profile) }, [])

/-- `upgrade` from src/lib.rs: loads the stored admin and requires that
admin's authorization; there is no caller parameter and no identity
comparison.  The WASM replacement itself is outside the embedded data
model, so the state is returned unchanged. -/
def upgrade (c : Ctx) (s : State) : Except Abort (State × List TtlExt) :=
  match s.admin with
  | none => .error (.contractErr .NotInitialized)
  | some admin =>
    if !(c.auth admin) then .error (.authFailure admin)
    else .ok (s, [])

/-! ### The public interface as a single step function -/

/-- One public contract invocation (mutating entry points and pure reads). -/
inductive Op where
  | OInit (admin : Address)
  | ORegister (u : Uname) (d : DisplayName) (caller : Address)
  | OSetDisplayName (d : DisplayName) (caller : Address)
  | OSetStringField (f : FieldName) (v : String) (caller : Address)
  | OSetIntField (f : FieldName) (v : Int) (caller : Address)
  | OSetBoolField (f : FieldName) (v : Bool) (caller : Address)
  | ORemoveField (f : FieldName) (caller : Address)
  | ODeleteProfile (caller : Address)
  | OTransfer (new_owner : Address) (caller : Address)
  | OReserveUsername (u : Uname) (caller : Address)
  | OUnreserveUsername (u : Uname) (caller : Address)
  | OSetRegistrationFee (fee : Int) (caller : Address)
  | OBanProfile (address : Address) (caller : Address)
  | OUpgrade
  | OGetByUsername (u : Uname)
  | OGetByAddress (a : Address)
  | OGetField (a : Address) (f : FieldName)
  | OGetFields (a : Address) (names : List FieldName)
  | OProfileCount
  | OIsUsernameAvailable (u : Uname)
  | ORegistrationFee
  | OAdminQuery

/-- Run one public invocation against the storage.  A panic (`Except.error`)
makes the host discard every partial write, so the pre-state is kept; pure
reads leave the state untouched and perform no `extend_ttl` call. -/
def stepOp (c : Ctx) (o : Op) (s : State) : State × List TtlExt :=
  match o with
  | .OInit a =>
    match init c a s with | .ok r => r | .error _ => (s, [])
  | .ORegister u d caller =>
    match register c u d caller s with | .ok (_, s', t) => (s', t) | .error _ => (s, [])
  | .OSetDisplayName d caller =>
    match set_display_name c d caller s with | .ok r => r | .error _ => (s, [])
  | .OSetStringField f v caller =>
    match set_string_field c f v caller s with | .ok r => r | .error _ => (s, [])
  | .OSetIntField f v caller =>
    match set_int_field c f v caller s with | .ok r => r | .error _ => (s, [])
  | .OSetBoolField f v caller =>
    match set_bool_field c f v caller s with | .ok r => r | .error _ => (s, [])
  | .ORemoveField f caller =>
    match remove_field c f caller s with | .ok r => r | .error _ => (s, [])
  | .ODeleteProfile caller =>
    match delete_profile c caller s with | .ok r => r | .error _ => (s, [])
  | .OTransfer n caller =>
    match transfer c n caller s with | .ok r => r | .error _ => (s, [])
  | .OReserveUsername u caller =>
    match reserve_username c u caller s with | .ok r => r | .error _ => (s, [])
  | .OUnreserveUsername u caller =>
    match unreserve_username c u caller s with | .ok r => r | .error _ => (s, [])
  | .OSetRegistrationFee fee caller =>
    match set_registration_fee c fee caller s with | .ok r => r | .error _ => (s, [])
  | .OBanProfile a caller =>
    match ban_profile c a caller s with | .ok r => r | .error _ => (s, [])
  | .OUpgrade =>
    match upgrade c s with | .ok r => r | .error _ => (s, [])
  | .OGetByUsername _ => (s, [])
  | .OGetByAddress _ => (s, [])
  | .OGetField _ _ => (s, [])
  | .OGetFields _ _ => (s, [])
  | .OProfileCount => (s, [])
  | .OIsUsernameAvailable _ => (s, [])
  | .ORegistrationFee => (s, [])
  | .OAdminQuery => (s, [])

def applyOp (c : Ctx) (o : Op) (s : State) : State := (stepOp c o s).1

/-- The `extend_ttl` calls committed by one public invocation. -/
def ttlOf (c : Ctx) (o : Op) (s : State) : List TtlExt := (stepOp c o s).2

def applyOps (l : List (Ctx × Op)) (s : State) : State :=
  l.foldl (fun s p => applyOp p.1 p.2 s) s

/-- Is this invocation one of the pure read entry points? -/
def Op.isRead : Op → Bool
  | .OGetByUsername _ => true
  | .OGetByAddress _ => true
  | .OGetField _ _ => true
  | .OGetFields _ _ => true
  | .OProfileCount => true
  | .OIsUsernameAvailable _ => true
  | .ORegistrationFee => true
  | .OAdminQuery => true
  | _ => false

def Op.isRegisterCall : Op → Bool
  | .ORegister _ _ _ => true
  | _ => false

/-- Fresh contract storage: nothing stored under any key. -/
def emptyState : State :=
  { admin := none, profileCount := none, usernames := fun _ => none,
    profiles := fun _ => none, fields := fun _ _ => none,
    reserved := fun _ => false, registrationFee := none }

/-- States reachable from fresh storage by any sequence of public
invocations, under arbitrary authorization contexts. -/
inductive Reachable : State → Prop where
  | empty : Reachable emptyState
  | step {s : State} (h : Reachable s) (c : Ctx) (o : Op) : Reachable (applyOp c o s)


/-! ### Concrete states used by the witnesses -/

/-- Context in which every principal has authorized the call. -/
def cAll : Ctx := ⟨fun _ => true, 7⟩

/-- Context in which no principal has authorized the call. -/
def cNone : Ctx := ⟨fun _ => false, 9⟩

/-- The byte string "abc123". -/
def uW : Uname := [97, 98, 99, 49, 50, 51]

/-- The byte string "xyz000". -/
def uW2 : Uname := [120, 121, 122, 48, 48, 48]

/-- The byte string "bob111". -/
def uW3 : Uname := [98, 111, 98, 49, 49, 49]

/-- Fresh storage after `init(0)`. -/
def sInit0 : State := applyOp cAll (.OInit 0) emptyState

/-- `sInit0` after account 1 registered "abc123". -/
def sReg1 : State := applyOp cAll (.ORegister uW "alice" 1) sInit0

/-- A live trace: account 2 registers "bob111", sets a bio field, and
transfers its profile to account 3 (its field entries stay keyed under 2);
account 1 then registers "abc123" and sets its own bio field.  Account 2
now has no Profile entry but still has a Field entry. -/
def sTrace9 : State :=
  applyOps [ (cAll, .ORegister uW3 "bob" 2),
             (cAll, .OSetStringField "bio" "hi" 2),
             (cAll, .OTransfer 3 2),
             (cAll, .ORegister uW "alice" 1),
             (cAll, .OSetStringField "bio" "mine" 1) ] sInit0


/-- Positional characterisation of `validate_username`: length in [6,17],
first three bytes lowercase, last three bytes digits, all bytes in between
lowercase/digit/underscore. -/
theorem validate_username_iff_pos (u : List Nat) :
    validate_username u = true ↔
      (MIN_USERNAME_LENGTH ≤ u.length ∧ u.length ≤ MAX_USERNAME_LENGTH ∧
       (∀ i, i < 3 → is_lowercase_letter (u.getD i 0) = true) ∧
       (∀ i, u.length - 3 ≤ i → i < u.length → is_digit (u.getD i 0) = true) ∧
       (∀ i, 3 ≤ i → i < u.length - 3 → is_valid_middle_char (u.getD i 0) = true)) := by
  unfold validate_username
  simp only [MIN_USERNAME_LENGTH, MAX_USERNAME_LENGTH, MIN_LEADING_LETTERS, TRAILING_DIGITS]
  by_cases hlen : u.length < 6 ∨ u.length > 17
  · have : (u.length < 6 || u.length > 17) = true := by
      simp only [Bool.or_eq_true, decide_eq_true_eq]; omega
    simp only [this, if_true]
    constructor
    · intro h; exact absurd h (by simp)
    · rintro ⟨h6, h17, -⟩; omega
  · push_neg at hlen
    have : (u.length < 6 || u.length > 17) = false := by
      simp only [Bool.or_eq_false_iff, decide_eq_false_iff_not]; omega
    simp only [this, Bool.false_eq_true, if_false, Bool.and_eq_true,
      List.all_eq_true, List.mem_range'_1]
    constructor
    · rintro ⟨⟨h1, h2⟩, h3⟩
      refine ⟨by omega, by omega, ?_, ?_, ?_⟩
      · intro i hi; exact h1 i ⟨by omega, by omega⟩
      · intro i hi hi'; exact h2 i ⟨by omega, by omega⟩
      · intro i hi hi'; exact h3 i ⟨by omega, by omega⟩
    · rintro ⟨-, -, h1, h2, h3⟩
      refine ⟨⟨?_, ?_⟩, ?_⟩
      · rintro i ⟨-, hi⟩; exact h1 i (by omega)
      · rintro i ⟨hi, hi'⟩; exact h2 i (by omega) (by omega)
      · rintro i ⟨hi, hi'⟩; exact h3 i (by omega) (by omega)

theorem lowerByte_iff (b : Nat) : lowerByte b ↔ is_lowercase_letter b = true := by
  simp [lowerByte, is_lowercase_letter]

theorem digitByte_iff (b : Nat) : digitByte b ↔ is_digit b = true := by
  simp [digitByte, is_digit]

theorem middleByte_iff (b : Nat) : middleByte b ↔ is_valid_middle_char b = true := by
  simp only [middleByte, is_valid_middle_char, Bool.or_eq_true, decide_eq_true_eq,
    ← lowerByte_iff, ← digitByte_iff]
  tauto

/-- The spec's regular-expression pattern, characterised positionally. -/
theorem usernamePattern_iff_pos (u : List Nat) :
    usernamePattern u ↔
      (MIN_USERNAME_LENGTH ≤ u.length ∧ u.length ≤ MAX_USERNAME_LENGTH ∧
       (∀ i, i < 3 → is_lowercase_letter (u.getD i 0) = true) ∧
       (∀ i, u.length - 3 ≤ i → i < u.length → is_digit (u.getD i 0) = true) ∧
       (∀ i, 3 ≤ i → i < u.length - 3 → is_valid_middle_char (u.getD i 0) = true)) := by
  simp only [MIN_USERNAME_LENGTH, MAX_USERNAME_LENGTH]
  constructor
  · rintro ⟨pre, mid, suf, hu, hpre, hmid, hsuf, hPre, hMid, hSuf⟩
    have hlen : u.length = pre.length + (mid.length + suf.length) := by
      rw [hu]; simp [List.length_append]
    refine ⟨by omega, by omega, ?_, ?_, ?_⟩
    · intro i hi
      have h1 : i < pre.length := by omega
      rw [hu, List.append_assoc, List.getD_append _ _ _ _ h1, List.getD_eq_getElem _ _ h1]
      exact (lowerByte_iff _).mp (hPre _ (List.getElem_mem h1))
    · intro i hi hi'
      have h1 : pre.length ≤ i := by omega
      have h2 : mid.length ≤ i - pre.length := by omega
      have h3 : i - pre.length - mid.length < suf.length := by omega
      rw [hu, List.append_assoc, List.getD_append_right _ _ _ _ h1,
        List.getD_append_right _ _ _ _ h2, List.getD_eq_getElem _ _ h3]
      exact (digitByte_iff _).mp (hSuf _ (List.getElem_mem h3))
    · intro i hi hi'
      have h1 : pre.length ≤ i := by omega
      have h2 : i - pre.length < mid.length := by omega
      rw [hu, List.append_assoc, List.getD_append_right _ _ _ _ h1,
        List.getD_append _ _ _ _ h2, List.getD_eq_getElem _ _ h2]
      exact (middleByte_iff _).mp (hMid _ (List.getElem_mem h2))
  · rintro ⟨h6, h17, hHead, hTail, hMidP⟩
    refine ⟨u.take 3, (u.drop 3).take (u.length - 6), u.drop (u.length - 3),
      ?_, ?_, ?_, ?_, ?_, ?_, ?_⟩
    · have harith : 3 + (u.length - 6) = u.length - 3 := by omega
      calc u = u.take 3 ++ u.drop 3 := (List.take_append_drop 3 u).symm
        _ = u.take 3 ++ ((u.drop 3).take (u.length - 6) ++ (u.drop 3).drop (u.length - 6)) := by
              rw [List.take_append_drop (u.length - 6) (u.drop 3)]
        _ = u.take 3 ++ ((u.drop 3).take (u.length - 6) ++ u.drop (u.length - 3)) := by
              rw [List.drop_drop, harith]
        _ = u.take 3 ++ (u.drop 3).take (u.length - 6) ++ u.drop (u.length - 3) :=
              (List.append_assoc _ _ _).symm
    · simp; omega
    · simp; omega
    · simp; omega
    · intro b hb
      obtain ⟨i, hilt, hib⟩ := List.mem_iff_getElem.mp hb
      have hi3 : i < 3 := by simp at hilt; omega
      have hiu : i < u.length := by simp at hilt; omega
      rw [List.getElem_take] at hib
      rw [lowerByte_iff, ← hib, ← List.getD_eq_getElem _ 0 hiu]
      exact hHead i hi3
    · intro b hb
      obtain ⟨k, hklt, hkb⟩ := List.mem_iff_getElem.mp hb
      have hk : k < u.length - 6 := by simp at hklt; omega
      have hku : 3 + k < u.length := by omega
      rw [List.getElem_take, List.getElem_drop] at hkb
      rw [middleByte_iff, ← hkb, ← List.getD_eq_getElem _ 0 hku]
      exact hMidP (3 + k) (by omega) (by omega)
    · intro b hb
      obtain ⟨k, hklt, hkb⟩ := List.mem_iff_getElem.mp hb
      have hk : k < 3 := by simp at hklt; omega
      have hku : u.length - 3 + k < u.length := by omega
      rw [List.getElem_drop] at hkb
      rw [digitByte_iff, ← hkb, ← List.getD_eq_getElem _ 0 hku]
      exact hTail (u.length - 3 + k) (by omega) (by omega)

/-- C3: `validate_username` returns true exactly on the byte strings matching
`^[a-z]{3}[a-z0-9_]{0,11}[0-9]{3}$` (total length 6–17); in particular it
returns false for every byte string of length < 6 or > 17, and false for every
single-byte mutation that breaks the pattern. -/
theorem validate_username_matches_pattern :
    (∀ u : List Nat, validate_username u = true ↔ usernamePattern u) ∧
    (∀ u : List Nat, u.length < 6 ∨ 17 < u.length → validate_username u = false) ∧
    (∀ (u : List Nat) (i : Nat) (c : Nat),
      ¬ usernamePattern (u.set i c) → validate_username (u.set i c) = false) := by
  have hmain : ∀ u : List Nat, validate_username u = true ↔ usernamePattern u :=
    fun u => (validate_username_iff_pos u).trans (usernamePattern_iff_pos u).symm
  refine ⟨hmain, ?_, ?_⟩
  · intro u hu
    cases hv : validate_username u with
    | false => rfl
    | true =>
      obtain ⟨h6, h17, -⟩ := (validate_username_iff_pos u).mp hv
      simp only [MIN_USERNAME_LENGTH, MAX_USERNAME_LENGTH] at h6 h17
      omega
  · intro u i c hnp
    cases hv : validate_username (u.set i c) with
    | false => rfl
    | true => exact absurd ((hmain _).mp hv) hnp

/-- Witness for C3 at concrete inputs: "abc123" is valid, "ab123" (length 5)
is invalid, and mutating the first byte of "abc123" to '0' is invalid. -/
theorem validate_username_matches_pattern_witness :
    validate_username [97, 98, 99, 49, 50, 51] = true ∧
    validate_username [97, 98, 49, 50, 51] = false ∧
    validate_username ([97, 98, 99, 49, 50, 51].set 0 48) = false := by
  refine ⟨?_, ?_, ?_⟩
  · exact (validate_username_matches_pattern.1 _).mpr
      ⟨[97, 98, 99], [], [49, 50, 51], by decide, by decide, by decide, by decide,
        by decide, by decide, by decide⟩
  · exact validate_username_matches_pattern.2.1 _ (by decide)
  · refine validate_username_matches_pattern.2.2 _ 0 48 (fun hp => ?_)
    exact absurd ((validate_username_matches_pattern.1 _).mpr hp) (by decide)

/-! ### Success-case elimination lemmas for the mutating operations -/

theorem register_ok_elim {c : Ctx} {u : Uname} {d : DisplayName} {a : Address} {s : State}
    {r : Bool × State × List TtlExt} (h : register c u d a s = .ok r) :
    c.auth a = true ∧ s.admin.isSome = true ∧ validate_username u = true ∧
    s.usernames u = none ∧ s.reserved u = false ∧ s.profiles a = none ∧
    r = (true, { s with
        usernames := upd s.usernames u (some a),
        profiles := upd s.profiles a (some (Profile.new u d a c.now)),
        profileCount := some ((s.profileCount.getD 0 + 1) % U64MOD) },
      [⟨.Username u, PROFILE_TTL_THRESHOLD, PROFILE_TTL_EXTEND⟩,
       ⟨.ProfileOf a, PROFILE_TTL_THRESHOLD, PROFILE_TTL_EXTEND⟩]) := by
  unfold register at h
  split_ifs at h with h1 h2 h3 h4 h5 h6
  all_goals try (cases h)
  simp only [Bool.not_eq_true, Bool.not_eq_false'] at h1 h3
  refine ⟨h1, ?_, h3, ?_, ?_, ?_, rfl⟩
  · simpa [Option.isNone_iff_eq_none, Option.isSome_iff_ne_none] using h2
  · simpa [Option.isSome_iff_ne_none] using h4
  · simpa using h5
  · simpa [Option.isSome_iff_ne_none] using h6

theorem init_ok_elim {c : Ctx} {a : Address} {s : State} {r : State × List TtlExt}
    (h : init c a s = .ok r) :
    s.admin = none ∧ c.auth a = true ∧
    r = ({ s with admin := some a, profileCount := some 0 }, []) := by
  unfold init at h
  split_ifs at h with h1 h2
  all_goals try (cases h)
  refine ⟨?_, by simpa using h2, rfl⟩
  simpa [Option.isSome_iff_ne_none] using h1

theorem set_display_name_ok_elim {c : Ctx} {d : DisplayName} {caller : Address} {s : State}
    {r : State × List TtlExt} (h : set_display_name c d caller s = .ok r) :
    c.auth caller = true ∧ ∃ p, s.profiles caller = some p ∧ p.deleted = false ∧
    p.owner = caller ∧
    r = ({ s with
        profiles := upd s.profiles caller
          (some { p with display_name := d, updated_at := c.now }) },
      [⟨.ProfileOf caller, PROFILE_TTL_THRESHOLD, PROFILE_TTL_EXTEND⟩]) := by
  unfold set_display_name at h
  split at h
  · cases h
  · next h1 =>
    split at h
    · cases h
    · next p hp =>
      split at h
      · cases h
      · next hdel =>
        split at h
        · cases h
        · next hown =>
          cases h
          exact ⟨by simpa using h1, p, hp, by simpa using hdel, by simpa using hown, rfl⟩

theorem set_field_internal_ok_elim {c : Ctx} {caller : Address} {f : FieldName}
    {v : FieldValue} {s : State} {r : State × List TtlExt}
    (h : set_field_internal c caller f v s = .ok r) :
    c.auth caller = true ∧ ∃ p, s.profiles caller = some p ∧ p.deleted = false ∧
    p.owner = caller ∧
    r = ({ s with fields := updF s.fields caller f (some v) },
         [⟨.Field caller f, PROFILE_TTL_THRESHOLD, PROFILE_TTL_EXTEND⟩]) := by
  unfold set_field_internal at h
  split at h
  · cases h
  · next h1 =>
    split at h
    · cases h
    · next p hp =>
      split at h
      · cases h
      · next hdel =>
        split at h
        · cases h
        · next hown =>
          cases h
          exact ⟨by simpa using h1, p, hp, by simpa using hdel, by simpa using hown, rfl⟩

theorem remove_field_ok_elim {c : Ctx} {f : FieldName} {caller : Address} {s : State}
    {r : State × List TtlExt} (h : remove_field c f caller s = .ok r) :
    c.auth caller = true ∧ ∃ p, s.profiles caller = some p ∧ p.deleted = false ∧
    p.owner = caller ∧
    r = ({ s with fields := updF s.fields caller f none }, []) := by
  unfold remove_field at h
  split at h
  · cases h
  · next h1 =>
    split at h
    · cases h
    · next p hp =>
      split at h
      · cases h
      · next hdel =>
        split at h
        · cases h
        · next hown =>
          cases h
          exact ⟨by simpa using h1, p, hp, by simpa using hdel, by simpa using hown, rfl⟩

theorem delete_profile_ok_elim {c : Ctx} {caller : Address} {s : State}
    {r : State × List TtlExt} (h : delete_profile c caller s = .ok r) :
    c.auth caller = true ∧ ∃ p, s.profiles caller = some p ∧ p.deleted = false ∧
    p.owner = caller ∧
    r = ({ s with
        profiles := upd s.profiles caller
          (some { p with deleted := true, updated_at := c.now }) },
      []) := by
  unfold delete_profile at h
  split at h
  · cases h
  · next h1 =>
    split at h
    · cases h
    · next p hp =>
      split at h
      · cases h
      · next hdel =>
        split at h
        · cases h
        · next hown =>
          cases h
          exact ⟨by simpa using h1, p, hp, by simpa using hdel, by simpa using hown, rfl⟩

theorem transfer_ok_elim {c : Ctx} {n : Address} {caller : Address} {s : State}
    {r : State × List TtlExt} (h : transfer c n caller s = .ok r) :
    c.auth caller = true ∧ c.auth n = true ∧ ∃ p, s.profiles caller = some p ∧
    p.deleted = false ∧ p.owner = caller ∧ s.profiles n = none ∧
    r = ({ s with
        usernames := upd s.usernames p.username (some n),
        profiles := upd (upd s.profiles caller none) n
          (some { p with owner := n, updated_at := c.now }) },
      [⟨.Username p.username, PROFILE_TTL_THRESHOLD, PROFILE_TTL_EXTEND⟩,
       ⟨.ProfileOf n, PROFILE_TTL_THRESHOLD, PROFILE_TTL_EXTEND⟩]) := by
  unfold transfer at h
  split at h
  · cases h
  · next h1 =>
    split at h
    · cases h
    · next h2 =>
      split at h
      · cases h
      · next p hp =>
        split at h
        · cases h
        · next hdel =>
          split at h
          · cases h
          · next hown =>
            split at h
            · cases h
            · next hnew =>
              cases h
              exact ⟨by simpa using h1, by simpa using h2, p, hp, by simpa using hdel,
                by simpa using hown, by simpa [Option.isSome_iff_ne_none] using hnew, rfl⟩

theorem require_admin_none_elim {c : Ctx} {caller : Address} {s : State}
    (h : require_admin c caller s = none) :
    s.admin = some caller ∧ c.auth caller = true := by
  unfold require_admin at h
  split at h
  · cases h
  · next adm hadm =>
    split_ifs at h with h1 h2
    all_goals try (cases h)
    simp only [ne_eq, not_not] at h1
    exact ⟨h1 ▸ hadm, by simpa using h2⟩

theorem reserve_username_ok_elim {c : Ctx} {u : Uname} {caller : Address} {s : State}
    {r : State × List TtlExt} (h : reserve_username c u caller s = .ok r) :
    s.admin = some caller ∧ c.auth caller = true ∧ validate_username u = true ∧
    r = ({ s with reserved := upd s.reserved u true }, []) := by
  unfold reserve_username at h
  split at h
  · cases h
  · next hra =>
    split_ifs at h with h1
    all_goals try (cases h)
    obtain ⟨ha, hc⟩ := require_admin_none_elim hra
    exact ⟨ha, hc, by simpa using h1, rfl⟩

theorem unreserve_username_ok_elim {c : Ctx} {u : Uname} {caller : Address} {s : State}
    {r : State × List TtlExt} (h : unreserve_username c u caller s = .ok r) :
    s.admin = some caller ∧ c.auth caller = true ∧
    r = ({ s with reserved := upd s.reserved u false }, []) := by
  unfold unreserve_username at h
  split at h
  · cases h
  · next hra =>
    cases h
    obtain ⟨ha, hc⟩ := require_admin_none_elim hra
    exact ⟨ha, hc, rfl⟩

theorem set_registration_fee_ok_elim {c : Ctx} {fee : Int} {caller : Address} {s : State}
    {r : State × List TtlExt} (h : set_registration_fee c fee caller s = .ok r) :
    s.admin = some caller ∧ c.auth caller = true ∧
    r = ({ s with registrationFee := some fee }, []) := by
  unfold set_registration_fee at h
  split at h
  · cases h
  · next hra =>
    cases h
    obtain ⟨ha, hc⟩ := require_admin_none_elim hra
    exact ⟨ha, hc, rfl⟩

theorem ban_profile_ok_elim {c : Ctx} {a : Address} {caller : Address} {s : State}
    {r : State × List TtlExt} (h : ban_profile c a caller s = .ok r) :
    s.admin = some caller ∧ c.auth caller = true ∧ ∃ p, s.profiles a = some p ∧
    r = ({ s with
        profiles := upd s.profiles a
          (some { p with deleted := true, updated_at := c.now }) },
      []) := by
  unfold ban_profile at h
  split at h
  · cases h
  · next hra =>
    split at h
    · cases h
    · next p hp =>
      cases h
      obtain ⟨ha, hc⟩ := require_admin_none_elim hra
      exact ⟨ha, hc, p, hp, rfl⟩

theorem upgrade_ok_elim {c : Ctx} {s : State} {r : State × List TtlExt}
    (h : upgrade c s = .ok r) :
    ∃ adm, s.admin = some adm ∧ c.auth adm = true ∧ r = (s, []) := by
  unfold upgrade at h
  split at h
  · cases h
  · next adm hadm =>
    split_ifs at h with h1
    all_goals try (cases h)
    exact ⟨adm, hadm, by simpa using h1, rfl⟩


/-! ### Per-invocation effect facts -/

/-- Facts about one public invocation, for any state and context:
an installed admin stays installed, a mapped username stays mapped,
the invariant "no admin implies no counter" is preserved, and every
invocation other than `register` leaves `profile_count` unchanged. -/
theorem applyOp_effects (c : Ctx) (o : Op) (s : State) :
    (s.admin.isSome = true → (applyOp c o s).admin.isSome = true) ∧
    (∀ u, (s.usernames u).isSome = true → ((applyOp c o s).usernames u).isSome = true) ∧
    ((s.admin = none → s.profileCount = none) →
      ((applyOp c o s).admin = none → (applyOp c o s).profileCount = none)) ∧
    (o.isRegisterCall = false → (s.admin = none → s.profileCount = none) →
      profile_count (applyOp c o s) = profile_count s) := by
  cases o with
  | OInit a =>
    unfold applyOp stepOp
    cases hr : init c a s with
    | error e =>
      simp only [hr]
      exact ⟨fun h => h, fun u h => h, fun hi => hi, fun _ _ => by trivial⟩
    | ok r =>
      obtain ⟨hadm, hauth, hre⟩ := init_ok_elim hr
      subst hre
      simp only [hr]
      refine ⟨fun h => by simp, fun u h => h, fun hi h' => by simp at h', fun _ hi => ?_⟩
      simp [profile_count, hi hadm]
  | ORegister u' d a =>
    unfold applyOp stepOp
    cases hr : register c u' d a s with
    | error e =>
      simp only [hr]
      exact ⟨fun h => h, fun u h => h, fun hi => hi, fun _ _ => by trivial⟩
    | ok r =>
      obtain ⟨-, hadm, -, -, -, -, hre⟩ := register_ok_elim hr
      subst hre
      simp only [hr]
      refine ⟨fun h => h, fun u hu => ?_, fun hi h' => ?_, fun hf _ => ?_⟩
      · by_cases he : u = u'
        · simp [upd, he]
        · simpa [upd, he] using hu
      · exact absurd hadm (by simp [h'])
      · exact absurd hf (by simp [Op.isRegisterCall])
  | OSetDisplayName d caller =>
    unfold applyOp stepOp
    cases hr : set_display_name c d caller s with
    | error e =>
      simp only [hr]
      exact ⟨fun h => h, fun u h => h, fun hi => hi, fun _ _ => by trivial⟩
    | ok r =>
      obtain ⟨-, p, -, -, -, hre⟩ := set_display_name_ok_elim hr
      subst hre
      simp only [hr]
      exact ⟨fun h => h, fun u h => h, fun hi => hi, fun _ _ => by trivial⟩
  | OSetStringField f v caller =>
    unfold applyOp stepOp set_string_field
    cases hr : set_field_internal c caller f (.StringField v) s with
    | error e =>
      simp only [hr]
      exact ⟨fun h => h, fun u h => h, fun hi => hi, fun _ _ => by trivial⟩
    | ok r =>
      obtain ⟨-, p, -, -, -, hre⟩ := set_field_internal_ok_elim hr
      subst hre
      simp only [hr]
      exact ⟨fun h => h, fun u h => h, fun hi => hi, fun _ _ => by trivial⟩
  | OSetIntField f v caller =>
    unfold applyOp stepOp set_int_field
    cases hr : set_field_internal c caller f (.IntField v) s with
    | error e =>
      simp only [hr]
      exact ⟨fun h => h, fun u h => h, fun hi => hi, fun _ _ => by trivial⟩
    | ok r =>
      obtain ⟨-, p, -, -, -, hre⟩ := set_field_internal_ok_elim hr
      subst hre
      simp only [hr]
      exact ⟨fun h => h, fun u h => h, fun hi => hi, fun _ _ => by trivial⟩
  | OSetBoolField f v caller =>
    unfold applyOp stepOp set_bool_field
    cases hr : set_field_internal c caller f (.BoolField v) s with
    | error e =>
      simp only [hr]
      exact ⟨fun h => h, fun u h => h, fun hi => hi, fun _ _ => by trivial⟩
    | ok r =>
      obtain ⟨-, p, -, -, -, hre⟩ := set_field_internal_ok_elim hr
      subst hre
      simp only [hr]
      exact ⟨fun h => h, fun u h => h, fun hi => hi, fun _ _ => by trivial⟩
  | ORemoveField f caller =>
    unfold applyOp stepOp
    cases hr : remove_field c f caller s with
    | error e =>
      simp only [hr]
      exact ⟨fun h => h, fun u h => h, fun hi => hi, fun _ _ => by trivial⟩
    | ok r =>
      obtain ⟨-, p, -, -, -, hre⟩ := remove_field_ok_elim hr
      subst hre
      simp only [hr]
      exact ⟨fun h => h, fun u h => h, fun hi => hi, fun _ _ => by trivial⟩
  | ODeleteProfile caller =>
    unfold applyOp stepOp
    cases hr : delete_profile c caller s with
    | error e =>
      simp only [hr]
      exact ⟨fun h => h, fun u h => h, fun hi => hi, fun _ _ => by trivial⟩
    | ok r =>
      obtain ⟨-, p, -, -, -, hre⟩ := delete_profile_ok_elim hr
      subst hre
      simp only [hr]
      exact ⟨fun h => h, fun u h => h, fun hi => hi, fun _ _ => by trivial⟩
  | OTransfer n caller =>
    unfold applyOp stepOp
    cases hr : transfer c n caller s with
    | error e =>
      simp only [hr]
      exact ⟨fun h => h, fun u h => h, fun hi => hi, fun _ _ => by trivial⟩
    | ok r =>
      obtain ⟨-, -, p, -, -, -, -, hre⟩ := transfer_ok_elim hr
      subst hre
      simp only [hr]
      refine ⟨fun h => h, fun u hu => ?_, fun hi => hi, fun _ _ => by trivial⟩
      by_cases he : u = p.username
      · simp [upd, he]
      · simpa [upd, he] using hu
  | OReserveUsername u' caller =>
    unfold applyOp stepOp
    cases hr : reserve_username c u' caller s with
    | error e =>
      simp only [hr]
      exact ⟨fun h => h, fun u h => h, fun hi => hi, fun _ _ => by trivial⟩
    | ok r =>
      obtain ⟨-, -, -, hre⟩ := reserve_username_ok_elim hr
      subst hre
      simp only [hr]
      exact ⟨fun h => h, fun u h => h, fun hi => hi, fun _ _ => by trivial⟩
  | OUnreserveUsername u' caller =>
    unfold applyOp stepOp
    cases hr : unreserve_username c u' caller s with
    | error e =>
      simp only [hr]
      exact ⟨fun h => h, fun u h => h, fun hi => hi, fun _ _ => by trivial⟩
    | ok r =>
      obtain ⟨-, -, hre⟩ := unreserve_username_ok_elim hr
      subst hre
      simp only [hr]
      exact ⟨fun h => h, fun u h => h, fun hi => hi, fun _ _ => by trivial⟩
  | OSetRegistrationFee fee caller =>
    unfold applyOp stepOp
    cases hr : set_registration_fee c fee caller s with
    | error e =>
      simp only [hr]
      exact ⟨fun h => h, fun u h => h, fun hi => hi, fun _ _ => by trivial⟩
    | ok r =>
      obtain ⟨-, -, hre⟩ := set_registration_fee_ok_elim hr
      subst hre
      simp only [hr]
      exact ⟨fun h => h, fun u h => h, fun hi => hi, fun _ _ => by trivial⟩
  | OBanProfile a caller =>
    unfold applyOp stepOp
    cases hr : ban_profile c a caller s with
    | error e =>
      simp only [hr]
      exact ⟨fun h => h, fun u h => h, fun hi => hi, fun _ _ => by trivial⟩
    | ok r =>
      obtain ⟨-, -, p, -, hre⟩ := ban_profile_ok_elim hr
      subst hre
      simp only [hr]
      exact ⟨fun h => h, fun u h => h, fun hi => hi, fun _ _ => by trivial⟩
  | OUpgrade =>
    unfold applyOp stepOp
    cases hr : upgrade c s with
    | error e =>
      simp only [hr]
      exact ⟨fun h => h, fun u h => h, fun hi => hi, fun _ _ => by trivial⟩
    | ok r =>
      obtain ⟨adm, -, -, hre⟩ := upgrade_ok_elim hr
      subst hre
      simp only [hr]
      exact ⟨fun h => h, fun u h => h, fun hi => hi, fun _ _ => by trivial⟩
  | OGetByUsername u' => exact ⟨fun h => h, fun u h => h, fun hi => hi, fun _ _ => by trivial⟩
  | OGetByAddress a => exact ⟨fun h => h, fun u h => h, fun hi => hi, fun _ _ => by trivial⟩
  | OGetField a f => exact ⟨fun h => h, fun u h => h, fun hi => hi, fun _ _ => by trivial⟩
  | OGetFields a names => exact ⟨fun h => h, fun u h => h, fun hi => hi, fun _ _ => by trivial⟩
  | OProfileCount => exact ⟨fun h => h, fun u h => h, fun hi => hi, fun _ _ => by trivial⟩
  | OIsUsernameAvailable u' => exact ⟨fun h => h, fun u h => h, fun hi => hi, fun _ _ => by trivial⟩
  | ORegistrationFee => exact ⟨fun h => h, fun u h => h, fun hi => hi, fun _ _ => by trivial⟩
  | OAdminQuery => exact ⟨fun h => h, fun u h => h, fun hi => hi, fun _ _ => by trivial⟩

/-- `applyOp_effects` lifted to invocation sequences. -/
theorem applyOps_effects (l : List (Ctx × Op)) (s : State) :
    (s.admin.isSome = true → (applyOps l s).admin.isSome = true) ∧
    (∀ u, (s.usernames u).isSome = true → ((applyOps l s).usernames u).isSome = true) := by
  induction l generalizing s with
  | nil => exact ⟨fun h => h, fun u h => h⟩
  | cons p l ih =>
    exact ⟨fun h => (ih (applyOp p.1 p.2 s)).1 ((applyOp_effects p.1 p.2 s).1 h),
      fun u h => (ih (applyOp p.1 p.2 s)).2 u ((applyOp_effects p.1 p.2 s).2.1 u h)⟩

/-- In every reachable state, an uninitialized contract has no profile
counter stored. -/
theorem reachable_uninit_count {s : State} (h : Reachable s) :
    s.admin = none → s.profileCount = none := by
  induction h with
  | empty => intro _; rfl
  | step h c o ih => exact (applyOp_effects c o _).2.2.1 ih


/-! ### C1 — username uniqueness -/

/-- C1: once `register(u, d, A)` has succeeded, any subsequent authorized
`register(u, d', B)` with `B ≠ A` — after any interleaving of further public
invocations — aborts with `UsernameTaken`, and (the host discarding every
write of an aborted invocation) leaves the state unchanged. -/
theorem register_username_taken_after_success
    (c0 c' : Ctx) (u : Uname) (d d' : DisplayName) (A B : Address) (s0 : State)
    (l : List (Ctx × Op))
    (hreg : (register c0 u d A s0).isOk = true)
    (hauth : c'.auth B = true) (_hBA : B ≠ A) :
    register c' u d' B (applyOps l (applyOp c0 (.ORegister u d A) s0)) =
      .error (.contractErr .UsernameTaken) ∧
    applyOp c' (.ORegister u d' B) (applyOps l (applyOp c0 (.ORegister u d A) s0)) =
      applyOps l (applyOp c0 (.ORegister u d A) s0) := by
  cases hr : register c0 u d A s0 with
  | error e => rw [hr] at hreg; cases hreg
  | ok r =>
    obtain ⟨-, hadm0, hval, -, -, -, hre⟩ := register_ok_elim hr
    subst hre
    have key : ∀ s1 : State, s1.admin.isSome = true → (s1.usernames u).isSome = true →
        register c' u d' B (applyOps l s1) = .error (.contractErr .UsernameTaken) ∧
        applyOp c' (.ORegister u d' B) (applyOps l s1) = applyOps l s1 := by
      intro s1 h1 h2
      obtain ⟨x, hx⟩ := Option.isSome_iff_exists.mp ((applyOps_effects l s1).1 h1)
      have husr := (applyOps_effects l s1).2 u h2
      have herr : register c' u d' B (applyOps l s1) =
          .error (.contractErr .UsernameTaken) := by
        unfold register
        simp [hauth, hx, hval, husr]
      exact ⟨herr, by simp only [applyOp, stepOp, herr]⟩
    have hs1 : applyOp c0 (.ORegister u d A) s0 =
        { s0 with
          usernames := upd s0.usernames u (some A),
          profiles := upd s0.profiles A (some (Profile.new u d A c0.now)),
          profileCount := some ((s0.profileCount.getD 0 + 1) % U64MOD) } := by
      simp only [applyOp, stepOp, hr]
    exact key _ (by rw [hs1]; simpa using hadm0) (by rw [hs1]; simp [upd])

/-- Witness for C1: in a live trace (init, register "abc123" by 1, then a
successful self-delete by 1), a later authorized `register("abc123", _, 2)`
still aborts with `UsernameTaken`. -/
theorem register_username_taken_after_success_witness :
    register cAll uW "bob" 2 (applyOps [(cAll, .ODeleteProfile 1)] (applyOp cAll (.ORegister uW "alice" 1) sInit0)) =
      .error (.contractErr .UsernameTaken) :=
  (register_username_taken_after_success cAll cAll uW "alice" "bob" 1 2 sInit0
    [(cAll, .ODeleteProfile 1)] (by rfl) (by rfl) (by decide)).1

/-! ### C2 — transfer atomicity -/

/-- C2: if `A` owns an active profile with username `u` and `B` has no
profile, then after a successful `transfer(B, A)`, in the same post-state:
`get_by_address(A)` is absent, `get_by_address(B)` is the profile with
owner `B` and username `u`, and `get_by_username(u)` is that same profile. -/
theorem transfer_atomic (c : Ctx) (A B : Address) (u : Uname) (p : Profile) (s : State)
    (hA : c.auth A = true) (hB : c.auth B = true)
    (hp : s.profiles A = some p) (hact : p.deleted = false) (hown : p.owner = A)
    (hu : p.username = u) (hB0 : s.profiles B = none) :
    ∃ (s' : State) (t : List TtlExt), transfer c B A s = .ok (s', t) ∧
      get_by_address s' A = none ∧
      (∃ q : Profile, get_by_address s' B = some q ∧ q.owner = B ∧ q.username = u ∧
        get_by_username s' u = some q) := by
  have hAB : A ≠ B := by
    intro h
    rw [h, hB0] at hp
    cases hp
  have htr : transfer c B A s = .ok
      ({ s with
          usernames := upd s.usernames p.username (some B),
          profiles := upd (upd s.profiles A none) B
            (some { p with owner := B, updated_at := c.now }) },
        [⟨.Username p.username, PROFILE_TTL_THRESHOLD, PROFILE_TTL_EXTEND⟩,
         ⟨.ProfileOf B, PROFILE_TTL_THRESHOLD, PROFILE_TTL_EXTEND⟩]) := by
    unfold transfer
    rw [hp]
    simp [hA, hB, hact, hown, hB0]
  refine ⟨_, _, htr, ?_, { p with owner := B, updated_at := c.now }, ?_, rfl, hu, ?_⟩
  · unfold get_by_address
    simp [upd, hAB]
  · unfold get_by_address
    simp [upd, Profile.is_active, hact]
  · unfold get_by_username
    simp [upd, hu, Profile.is_active, hact]

/-- Witness for C2 at a concrete trace: after init and registration of
"abc123" by account 1, transferring to account 2 succeeds with all three
observations consistent. -/
theorem transfer_atomic_witness :
    ∃ (s' : State) (t : List TtlExt), transfer cAll 2 1 sReg1 = .ok (s', t) ∧
      get_by_address s' 1 = none ∧
      (∃ q : Profile, get_by_address s' 2 = some q ∧ q.owner = 2 ∧ q.username = uW ∧
        get_by_username s' uW = some q) :=
  transfer_atomic cAll 1 2 uW (Profile.new uW "alice" 1 7) sReg1
    (by rfl) (by rfl) (by rfl) (by rfl) (by rfl) (by rfl) (by rfl)


/-! ### C5 — delete frame and permanent unavailability -/

/-- C5: `delete_profile(A)`, where `A` owns an active profile, rewrites only
`A`'s profile entry (setting `deleted` and `updated_at`); every other profile
entry, the username mapping, the reserved set, the field store, the admin,
the counter and the fee are untouched; afterwards `get_by_address(A)` is
absent and `is_username_available` on `A`'s (mapped) username is false. -/
theorem delete_profile_frame (c : Ctx) (A w : Address) (p : Profile) (s : State)
    (hA : c.auth A = true) (hp : s.profiles A = some p) (hact : p.deleted = false)
    (hown : p.owner = A) (hw : s.usernames p.username = some w) :
    ∃ s' : State, delete_profile c A s = .ok (s', []) ∧
      s'.profiles A = some { p with deleted := true, updated_at := c.now } ∧
      (∀ x, x ≠ A → s'.profiles x = s.profiles x) ∧
      s'.usernames = s.usernames ∧ s'.reserved = s.reserved ∧
      s'.fields = s.fields ∧ s'.admin = s.admin ∧
      s'.profileCount = s.profileCount ∧ s'.registrationFee = s.registrationFee ∧
      get_by_address s' A = none ∧
      is_username_available s' p.username = false := by
  have hdel : delete_profile c A s = .ok
      ({ s with
          profiles := upd s.profiles A
            (some { p with deleted := true, updated_at := c.now }) }, []) := by
    unfold delete_profile
    rw [hp]
    simp [hA, hact, hown]
  refine ⟨_, hdel, ?_, ?_, rfl, rfl, rfl, rfl, rfl, rfl, ?_, ?_⟩
  · simp [upd]
  · intro x hx
    simp [upd, hx]
  · unfold get_by_address
    simp [upd, Profile.is_active]
  · unfold is_username_available
    by_cases hv : validate_username p.username
    · simp only [hv, Bool.not_true, Bool.false_eq_true, if_false]
      simp [hw]
    · simp [hv]

/-- Witness for C5 at a concrete trace: account 1 deletes its registered
profile "abc123". -/
theorem delete_profile_frame_witness :
    ∃ s' : State, delete_profile cAll 1 sReg1 = .ok (s', []) ∧
      s'.profiles 1 = some { Profile.new uW "alice" 1 7 with deleted := true, updated_at := 7 } ∧
      (∀ x, x ≠ 1 → s'.profiles x = sReg1.profiles x) ∧
      s'.usernames = sReg1.usernames ∧ s'.reserved = sReg1.reserved ∧
      s'.fields = sReg1.fields ∧ s'.admin = sReg1.admin ∧
      s'.profileCount = sReg1.profileCount ∧ s'.registrationFee = sReg1.registrationFee ∧
      get_by_address s' 1 = none ∧
      is_username_available s' (Profile.new uW "alice" 1 7).username = false :=
  delete_profile_frame cAll 1 1 (Profile.new uW "alice" 1 7) sReg1
    (by rfl) (by rfl) (by rfl) (by rfl) (by rfl)

/-! ### C4 — re-registration block (corrected) -/

/-- Counterexample to C4 as stated: after account 1 registered "abc123" and
then soft-deleted, `register("abc123", _, 1)` aborts with `UsernameTaken`
(the username-taken check runs before the profile-exists check), not with
`ProfileExists` — so "any `register(u2, d, A)` aborts with `ProfileExists`"
fails at `u2 = "abc123"`. -/
theorem register_after_delete_counterexample :
    register cAll uW "carol" 1 (applyOp cAll (.ODeleteProfile 1) sReg1) =
      .error (.contractErr .UsernameTaken) ∧
    Abort.contractErr .UsernameTaken ≠ Abort.contractErr .ProfileExists :=
  ⟨rfl, by decide⟩

/-- C4 amended: while an account's profile entry exists (active or
soft-deleted), `register` never succeeds for it; it aborts with
`ProfileExists` precisely when the requested username passes the earlier
checks (valid, unmapped, unreserved), and `delete_profile` preserves the
profile entry, so the block survives a self-delete. -/
theorem register_blocked_after_any_profile (c : Ctx) (u2 : Uname) (d : DisplayName)
    (A : Address) (s : State) (hh : (s.profiles A).isSome = true) :
    (register c u2 d A s).isOk = false ∧
    (c.auth A = true → s.admin.isSome = true → validate_username u2 = true →
      s.usernames u2 = none → s.reserved u2 = false →
      register c u2 d A s = .error (.contractErr .ProfileExists)) ∧
    (∀ c' : Ctx, ((applyOp c' (.ODeleteProfile A) s).profiles A).isSome = true) := by
  refine ⟨?_, ?_, ?_⟩
  · unfold register
    split_ifs <;> simp_all [Except.isOk, Except.toBool]
  · intro ha hadm hval hu hres
    obtain ⟨x, hx⟩ := Option.isSome_iff_exists.mp hadm
    unfold register
    simp [ha, hx, hval, hu, hres, hh]
  · intro c'
    simp only [applyOp, stepOp]
    cases hr : delete_profile c' A s with
    | error e => exact hh
    | ok r =>
      obtain ⟨-, p, hp, -, -, hre⟩ := delete_profile_ok_elim hr
      subst hre
      simp [upd]

/-- Witness for the amended C4: after register-then-delete by account 1,
registering the fresh valid username "xyz000" for account 1 aborts with
`ProfileExists`. -/
theorem register_blocked_after_any_profile_witness :
    (register cAll uW2 "dave" 1 (applyOp cAll (.ODeleteProfile 1) sReg1)).isOk = false ∧
    register cAll uW2 "dave" 1 (applyOp cAll (.ODeleteProfile 1) sReg1) =
      .error (.contractErr .ProfileExists) := by
  have h := register_blocked_after_any_profile cAll uW2 "dave" 1
    (applyOp cAll (.ODeleteProfile 1) sReg1) (by rfl)
  exact ⟨h.1, h.2.1 (by rfl) (by rfl) (by rfl) (by rfl) (by rfl)⟩

/-! ### C8 — profile count counts registrations -/

/-- C8: `profile_count` grows by exactly one on each successful `register`
(below the `u64` bound), and in every reachable state every other public
invocation — deletes, bans and transfers included — leaves it unchanged. -/
theorem profile_count_counts_registrations (c : Ctx) (u : Uname) (d : DisplayName)
    (a : Address) (s : State) :
    ((register c u d a s).isOk = true → profile_count s + 1 < U64MOD →
      profile_count (applyOp c (.ORegister u d a) s) = profile_count s + 1) ∧
    (∀ s' : State, Reachable s' → ∀ (c' : Ctx) (o : Op), o.isRegisterCall = false →
      profile_count (applyOp c' o s') = profile_count s') := by
  constructor
  · intro hok hlt
    cases hr : register c u d a s with
    | error e => rw [hr] at hok; cases hok
    | ok r =>
      obtain ⟨-, -, -, -, -, -, hre⟩ := register_ok_elim hr
      subst hre
      simp only [applyOp, stepOp, hr]
      unfold profile_count at hlt ⊢
      simp only [Option.getD_some]
      exact Nat.mod_eq_of_lt hlt
  · exact fun s' hs' c' o hno =>
      (applyOp_effects c' o s').2.2.2 hno (reachable_uninit_count hs')

/-- Witness for C8: registering "abc123" takes the count from 0 to 1, and a
subsequent successful delete leaves the count at 1. -/
theorem profile_count_counts_registrations_witness :
    profile_count (applyOp cAll (.ORegister uW "alice" 1) sInit0) = profile_count sInit0 + 1 ∧
    profile_count (applyOp cAll (.ODeleteProfile 1) sReg1) = profile_count sReg1 :=
  ⟨(profile_count_counts_registrations cAll uW "alice" 1 sInit0).1 (by rfl) (by decide),
   (profile_count_counts_registrations cAll uW "alice" 1 sInit0).2 sReg1
     (Reachable.step (Reachable.step Reachable.empty cAll (.OInit 0)) cAll
       (.ORegister uW "alice" 1)) cAll (.ODeleteProfile 1) (by rfl)⟩


/-! ### C6 — admin authority gate (corrected) -/

/-- Counterexample to C6 as stated for `upgrade`: `upgrade` takes no caller
and performs no `caller == admin` identity comparison — with the admin
installed but no authorization given, it aborts with the host's
authorization failure for the admin, never with `NotAuthorized`. -/
theorem upgrade_gate_counterexample :
    upgrade cNone sInit0 = .error (.authFailure 0) ∧
    Abort.authFailure 0 ≠ Abort.contractErr ProfileError.NotAuthorized :=
  ⟨rfl, by decide⟩

/-- C6 amended: `reserve_username`, `unreserve_username`,
`set_registration_fee` and `ban_profile` share `require_admin`, which
compares `caller == admin` first — a non-admin caller gets `NotAuthorized`
whatever the authorization context — and only then requires the caller's
authorization; `upgrade` instead loads the stored admin and directly
requires that admin's authorization, with no identity comparison. -/
theorem admin_gate_order (c : Ctx) (caller adm : Address) (s : State)
    (hadm : s.admin = some adm) :
    (caller ≠ adm →
      (∀ u, reserve_username c u caller s = .error (.contractErr .NotAuthorized)) ∧
      (∀ u, unreserve_username c u caller s = .error (.contractErr .NotAuthorized)) ∧
      (∀ fee, set_registration_fee c fee caller s = .error (.contractErr .NotAuthorized)) ∧
      (∀ a, ban_profile c a caller s = .error (.contractErr .NotAuthorized))) ∧
    (caller = adm → c.auth caller = false →
      (∀ u, reserve_username c u caller s = .error (.authFailure caller)) ∧
      (∀ u, unreserve_username c u caller s = .error (.authFailure caller)) ∧
      (∀ fee, set_registration_fee c fee caller s = .error (.authFailure caller)) ∧
      (∀ a, ban_profile c a caller s = .error (.authFailure caller))) ∧
    (c.auth adm = false → upgrade c s = .error (.authFailure adm)) ∧
    (c.auth adm = true → upgrade c s = .ok (s, [])) := by
  refine ⟨fun hne => ?_, fun heq hf => ?_, fun hf => ?_, fun ht => ?_⟩
  · have hra : require_admin c caller s = some (.contractErr .NotAuthorized) := by
      unfold require_admin
      simp [hadm, hne]
    exact ⟨fun u => by unfold reserve_username; simp [hra],
      fun u => by unfold unreserve_username; simp [hra],
      fun fee => by unfold set_registration_fee; simp [hra],
      fun a => by unfold ban_profile; simp [hra]⟩
  · subst heq
    have hra : require_admin c caller s = some (.authFailure caller) := by
      unfold require_admin
      simp [hadm, hf]
    exact ⟨fun u => by unfold reserve_username; simp [hra],
      fun u => by unfold unreserve_username; simp [hra],
      fun fee => by unfold set_registration_fee; simp [hra],
      fun a => by unfold ban_profile; simp [hra]⟩
  · unfold upgrade
    simp [hadm, hf]
  · unfold upgrade
    simp [hadm, ht]

/-- Witness for C6 amended, against `init(0)`: a non-admin caller gets
`NotAuthorized` even in a context with no authorizations at all; the admin
itself, unauthorized, gets the auth failure; `upgrade` fails with the
admin's auth failure or succeeds once the admin authorized. -/
theorem admin_gate_order_witness :
    reserve_username cNone uW 1 sInit0 = .error (.contractErr .NotAuthorized) ∧
    reserve_username cNone uW 0 sInit0 = .error (.authFailure 0) ∧
    upgrade cNone sInit0 = .error (.authFailure 0) ∧
    upgrade cAll sInit0 = .ok (sInit0, []) :=
  ⟨((admin_gate_order cNone 1 0 sInit0 (by rfl)).1 (by decide)).1 uW,
   ((admin_gate_order cNone 0 0 sInit0 (by rfl)).2.1 rfl (by rfl)).1 uW,
   (admin_gate_order cNone 1 0 sInit0 (by rfl)).2.2.1 (by rfl),
   (admin_gate_order cAll 1 0 sInit0 (by rfl)).2.2.2 (by rfl)⟩

/-! ### C7 — TTL refresh discipline (corrected) -/

/-- Counterexample to C7 as stated: a successful `delete_profile` mutates
the caller's Profile entry but performs no `extend_ttl` call at all. -/
theorem delete_profile_ttl_counterexample :
    (delete_profile cAll 1 sReg1).isOk = true ∧
    ttlOf cAll (.ODeleteProfile 1) sReg1 = [] ∧
    (applyOp cAll (.ODeleteProfile 1) sReg1).profiles 1 ≠ sReg1.profiles 1 :=
  ⟨rfl, rfl, by decide⟩

/-- C7 amended: `register` refreshes the new Username and Profile entries,
`set_display_name` the Profile entry, the field setters the Field entry,
and `transfer` the Username and new-owner Profile entries — always with
`(PROFILE_TTL_THRESHOLD, PROFILE_TTL_EXTEND)`; but `delete_profile` and
`ban_profile` mutate the Profile entry with no refresh, and no pure read
performs any `extend_ttl` call or state change. -/
theorem ttl_refresh_discipline (c : Ctx) (s : State) :
    (∀ u d a, (register c u d a s).isOk = true →
      ttlOf c (.ORegister u d a) s =
        [⟨.Username u, PROFILE_TTL_THRESHOLD, PROFILE_TTL_EXTEND⟩,
         ⟨.ProfileOf a, PROFILE_TTL_THRESHOLD, PROFILE_TTL_EXTEND⟩]) ∧
    (∀ d a, (set_display_name c d a s).isOk = true →
      ttlOf c (.OSetDisplayName d a) s =
        [⟨.ProfileOf a, PROFILE_TTL_THRESHOLD, PROFILE_TTL_EXTEND⟩]) ∧
    (∀ f v a, (set_string_field c f v a s).isOk = true →
      ttlOf c (.OSetStringField f v a) s =
        [⟨.Field a f, PROFILE_TTL_THRESHOLD, PROFILE_TTL_EXTEND⟩]) ∧
    (∀ f v a, (set_int_field c f v a s).isOk = true →
      ttlOf c (.OSetIntField f v a) s =
        [⟨.Field a f, PROFILE_TTL_THRESHOLD, PROFILE_TTL_EXTEND⟩]) ∧
    (∀ f v a, (set_bool_field c f v a s).isOk = true →
      ttlOf c (.OSetBoolField f v a) s =
        [⟨.Field a f, PROFILE_TTL_THRESHOLD, PROFILE_TTL_EXTEND⟩]) ∧
    (∀ n a p, s.profiles a = some p → (transfer c n a s).isOk = true →
      ttlOf c (.OTransfer n a) s =
        [⟨.Username p.username, PROFILE_TTL_THRESHOLD, PROFILE_TTL_EXTEND⟩,
         ⟨.ProfileOf n, PROFILE_TTL_THRESHOLD, PROFILE_TTL_EXTEND⟩]) ∧
    (∀ a, ttlOf c (.ODeleteProfile a) s = []) ∧
    (∀ a b, ttlOf c (.OBanProfile a b) s = []) ∧
    (∀ o : Op, o.isRead = true → ttlOf c o s = [] ∧ applyOp c o s = s) := by
  refine ⟨?_, ?_, ?_, ?_, ?_, ?_, ?_, ?_, ?_⟩
  · intro u d a hok
    cases hr : register c u d a s with
    | error e => rw [hr] at hok; cases hok
    | ok r =>
      obtain ⟨-, -, -, -, -, -, hre⟩ := register_ok_elim hr
      subst hre
      simp only [ttlOf, stepOp, hr]
  · intro d a hok
    cases hr : set_display_name c d a s with
    | error e => rw [hr] at hok; cases hok
    | ok r =>
      obtain ⟨-, p, -, -, -, hre⟩ := set_display_name_ok_elim hr
      subst hre
      simp only [ttlOf, stepOp, hr]
  · intro f v a hok
    cases hr : set_string_field c f v a s with
    | error e => rw [hr] at hok; cases hok
    | ok r =>
      unfold set_string_field at hr
      obtain ⟨-, p, -, -, -, hre⟩ := set_field_internal_ok_elim hr
      subst hre
      simp only [ttlOf, stepOp, set_string_field, hr]
  · intro f v a hok
    cases hr : set_int_field c f v a s with
    | error e => rw [hr] at hok; cases hok
    | ok r =>
      unfold set_int_field at hr
      obtain ⟨-, p, -, -, -, hre⟩ := set_field_internal_ok_elim hr
      subst hre
      simp only [ttlOf, stepOp, set_int_field, hr]
  · intro f v a hok
    cases hr : set_bool_field c f v a s with
    | error e => rw [hr] at hok; cases hok
    | ok r =>
      unfold set_bool_field at hr
      obtain ⟨-, p, -, -, -, hre⟩ := set_field_internal_ok_elim hr
      subst hre
      simp only [ttlOf, stepOp, set_bool_field, hr]
  · intro n a p hp hok
    cases hr : transfer c n a s with
    | error e => rw [hr] at hok; cases hok
    | ok r =>
      obtain ⟨-, -, q, hq, -, -, -, hre⟩ := transfer_ok_elim hr
      subst hre
      rw [hp] at hq
      injection hq with hq
      subst hq
      simp only [ttlOf, stepOp, hr]
  · intro a
    cases hr : delete_profile c a s with
    | error e => simp only [ttlOf, stepOp, hr]
    | ok r =>
      obtain ⟨-, p, -, -, -, hre⟩ := delete_profile_ok_elim hr
      subst hre
      simp only [ttlOf, stepOp, hr]
  · intro a b
    cases hr : ban_profile c a b s with
    | error e => simp only [ttlOf, stepOp, hr]
    | ok r =>
      obtain ⟨-, -, p, -, hre⟩ := ban_profile_ok_elim hr
      subst hre
      simp only [ttlOf, stepOp, hr]
  · intro o ho
    cases o <;> first
      | exact ⟨rfl, rfl⟩
      | exact absurd ho (by simp [Op.isRead])

/-- Witness for C7 amended, on concrete traces: register and the field
setter refresh their entries, transfer refreshes the username and the new
owner's entry, delete refreshes nothing, reads refresh nothing. -/
theorem ttl_refresh_discipline_witness :
    ttlOf cAll (.ORegister uW "alice" 1) sInit0 =
      [⟨.Username uW, PROFILE_TTL_THRESHOLD, PROFILE_TTL_EXTEND⟩,
       ⟨.ProfileOf 1, PROFILE_TTL_THRESHOLD, PROFILE_TTL_EXTEND⟩] ∧
    ttlOf cAll (.OSetStringField "bio" "hi" 1) sReg1 =
      [⟨.Field 1 "bio", PROFILE_TTL_THRESHOLD, PROFILE_TTL_EXTEND⟩] ∧
    ttlOf cAll (.OTransfer 2 1) sReg1 =
      [⟨.Username uW, PROFILE_TTL_THRESHOLD, PROFILE_TTL_EXTEND⟩,
       ⟨.ProfileOf 2, PROFILE_TTL_THRESHOLD, PROFILE_TTL_EXTEND⟩] ∧
    ttlOf cAll (.ODeleteProfile 1) sReg1 = [] ∧
    ttlOf cAll (.OGetByUsername uW) sReg1 = [] :=
  ⟨(ttl_refresh_discipline cAll sInit0).1 uW "alice" 1 (by rfl),
   (ttl_refresh_discipline cAll sReg1).2.2.1 "bio" "hi" 1 (by rfl),
   (ttl_refresh_discipline cAll sReg1).2.2.2.2.2.1 2 1 (Profile.new uW "alice" 1 7)
     (by rfl) (by rfl),
   (ttl_refresh_discipline cAll sReg1).2.2.2.2.2.2.1 1,
   ((ttl_refresh_discipline cAll sReg1).2.2.2.2.2.2.2.2 (.OGetByUsername uW) (by rfl)).1⟩


/-! ### C9 — transfer and field entries (corrected) -/

/-- Counterexample to C9 as stated: in the reachable state `sTrace9`,
`transfer(2, 1)` succeeds (account 2 has no Profile entry), the old owner's
field is unchanged — but `get_field(2, "bio")` is *not* absent: account 2
retained a field entry from the profile it previously transferred away. -/
theorem transfer_field_counterexample :
    (transfer cAll 2 1 sTrace9).isOk = true ∧
    get_field sTrace9 1 "bio" = some (.StringField "mine") ∧
    get_field (applyOp cAll (.OTransfer 2 1) sTrace9) 1 "bio" =
      some (.StringField "mine") ∧
    get_field (applyOp cAll (.OTransfer 2 1) sTrace9) 2 "bio" =
      some (.StringField "hi") ∧
    some (FieldValue.StringField "hi") ≠ (none : Option FieldValue) :=
  ⟨rfl, rfl, rfl, rfl, by decide⟩

/-- C9 amended: a successful `transfer(B, A)` writes no Field entry at all —
`get_field(A, f)` and `get_field(B, f)` are both exactly what they were
before the transfer (so `get_field(B, f)` is absent unless `B` retained
field entries from a previously transferred-away profile); `A` is left with
no Profile entry, so `A` can no longer set or remove fields. -/
theorem transfer_fields_frame (c : Ctx) (n a : Address) (s : State)
    (h : (transfer c n a s).isOk = true) :
    (applyOp c (.OTransfer n a) s).fields = s.fields ∧
    (∀ f, get_field (applyOp c (.OTransfer n a) s) a f = get_field s a f) ∧
    (∀ f, get_field (applyOp c (.OTransfer n a) s) n f = get_field s n f) ∧
    (applyOp c (.OTransfer n a) s).profiles a = none ∧
    (∀ (c2 : Ctx) (f : FieldName) (v : FieldValue),
      (set_field_internal c2 a f v (applyOp c (.OTransfer n a) s)).isOk = false) ∧
    (∀ (c2 : Ctx) (f : FieldName),
      (remove_field c2 f a (applyOp c (.OTransfer n a) s)).isOk = false) := by
  cases hr : transfer c n a s with
  | error e => rw [hr] at h; cases h
  | ok r =>
    obtain ⟨-, -, p, hp, -, -, hnew, hre⟩ := transfer_ok_elim hr
    subst hre
    have han : a ≠ n := by
      intro he
      rw [he, hnew] at hp
      cases hp
    have hpa : (applyOp c (.OTransfer n a) s).profiles a = none := by
      simp only [applyOp, stepOp, hr]
      simp [upd, han]
    refine ⟨by simp only [applyOp, stepOp, hr], fun f => ?_, fun f => ?_, hpa, ?_, ?_⟩
    · simp only [applyOp, stepOp, hr, get_field]
    · simp only [applyOp, stepOp, hr, get_field]
    · intro c2 f v
      unfold set_field_internal
      rw [hpa]
      split_ifs <;> rfl
    · intro c2 f
      unfold remove_field
      rw [hpa]
      split_ifs <;> rfl

/-- Witness for C9 amended at the concrete trace `sTrace9`. -/
theorem transfer_fields_frame_witness :
    (applyOp cAll (.OTransfer 2 1) sTrace9).fields = sTrace9.fields ∧
    get_field (applyOp cAll (.OTransfer 2 1) sTrace9) 1 "bio" =
      get_field sTrace9 1 "bio" ∧
    (applyOp cAll (.OTransfer 2 1) sTrace9).profiles 1 = none ∧
    (set_field_internal cAll 1 "bio" (.StringField "again")
      (applyOp cAll (.OTransfer 2 1) sTrace9)).isOk = false := by
  have h := transfer_fields_frame cAll 2 1 sTrace9 (by rfl)
  exact ⟨h.1, h.2.1 "bio", h.2.2.2.1, h.2.2.2.2.1 cAll "bio" (.StringField "again")⟩

/-! ### C10 — field reads ignore profile deletion -/

/-- C10: `get_field` and `get_fields` read the field store with no
active-profile check; a successful `delete_profile` or `ban_profile` leaves
the whole field store byte-for-byte unchanged while making
`get_by_address` (and `get_by_username` through the mapping) absent for the
same account. -/
theorem fields_survive_soft_delete :
    (∀ (c : Ctx) (a : Address) (s : State), (delete_profile c a s).isOk = true →
      (applyOp c (.ODeleteProfile a) s).fields = s.fields ∧
      (∀ x f, get_field (applyOp c (.ODeleteProfile a) s) x f = get_field s x f) ∧
      (∀ x names, get_fields (applyOp c (.ODeleteProfile a) s) x names = get_fields s x names) ∧
      get_by_address (applyOp c (.ODeleteProfile a) s) a = none ∧
      (∀ u, s.usernames u = some a →
        get_by_username (applyOp c (.ODeleteProfile a) s) u = none)) ∧
    (∀ (c : Ctx) (a b : Address) (s : State), (ban_profile c a b s).isOk = true →
      (applyOp c (.OBanProfile a b) s).fields = s.fields ∧
      (∀ x f, get_field (applyOp c (.OBanProfile a b) s) x f = get_field s x f) ∧
      (∀ x names, get_fields (applyOp c (.OBanProfile a b) s) x names = get_fields s x names) ∧
      get_by_address (applyOp c (.OBanProfile a b) s) a = none ∧
      (∀ u, s.usernames u = some a →
        get_by_username (applyOp c (.OBanProfile a b) s) u = none)) := by
  constructor
  · intro c a s hok
    cases hr : delete_profile c a s with
    | error e => rw [hr] at hok; cases hok
    | ok r =>
      obtain ⟨-, p, hp, -, -, hre⟩ := delete_profile_ok_elim hr
      subst hre
      refine ⟨by simp only [applyOp, stepOp, hr],
        fun x f => by simp only [applyOp, stepOp, hr, get_field],
        fun x names => by simp only [applyOp, stepOp, hr, get_fields],
        ?_, fun u hu => ?_⟩
      · simp only [applyOp, stepOp, hr]
        simp [get_by_address, upd, Profile.is_active]
      · simp only [applyOp, stepOp, hr]
        simp [get_by_username, upd, hu, Profile.is_active]
  · intro c a b s hok
    cases hr : ban_profile c a b s with
    | error e => rw [hr] at hok; cases hok
    | ok r =>
      obtain ⟨-, -, p, hp, hre⟩ := ban_profile_ok_elim hr
      subst hre
      refine ⟨by simp only [applyOp, stepOp, hr],
        fun x f => by simp only [applyOp, stepOp, hr, get_field],
        fun x names => by simp only [applyOp, stepOp, hr, get_fields],
        ?_, fun u hu => ?_⟩
      · simp only [applyOp, stepOp, hr]
        simp [get_by_address, upd, Profile.is_active]
      · simp only [applyOp, stepOp, hr]
        simp [get_by_username, upd, hu, Profile.is_active]

/-- Witness for C10 at a concrete trace: account 1 sets a bio field, then
deletes its profile (and, separately, is banned by the admin); the field is
still readable while the profile reads are absent. -/
theorem fields_survive_soft_delete_witness :
    get_field (applyOp cAll (.ODeleteProfile 1)
        (applyOp cAll (.OSetStringField "bio" "hi" 1) sReg1)) 1 "bio" =
      get_field (applyOp cAll (.OSetStringField "bio" "hi" 1) sReg1) 1 "bio" ∧
    get_by_address (applyOp cAll (.ODeleteProfile 1)
        (applyOp cAll (.OSetStringField "bio" "hi" 1) sReg1)) 1 = none ∧
    get_by_username (applyOp cAll (.ODeleteProfile 1)
        (applyOp cAll (.OSetStringField "bio" "hi" 1) sReg1)) uW = none ∧
    get_field (applyOp cAll (.OBanProfile 1 0)
        (applyOp cAll (.OSetStringField "bio" "hi" 1) sReg1)) 1 "bio" =
      get_field (applyOp cAll (.OSetStringField "bio" "hi" 1) sReg1) 1 "bio" := by
  have hd := fields_survive_soft_delete.1 cAll 1
    (applyOp cAll (.OSetStringField "bio" "hi" 1) sReg1) (by rfl)
  have hb := fields_survive_soft_delete.2 cAll 1 0
    (applyOp cAll (.OSetStringField "bio" "hi" 1) sReg1) (by rfl)
  exact ⟨hd.2.1 1 "bio", hd.2.2.2.1, hd.2.2.2.2 uW (by rfl), hb.2.1 1 "bio"⟩

end UserProfile
